import Mathlib

/-!
Shallow embedding of `src/hpo/optuna.py` from huggingface/benchmarks.

Python values appearing in the parameter dictionaries are modelled by `PyVal`
(integers, strings, lists); Python dictionaries by ordered association lists
with Python's `d[k] = v` / `d.update(...)` semantics; exceptions by `PyErr`.
The effectful collaborators (the optuna trial's `suggest_categorical`, the
candidate generators `generate_nb_instances_candidates` and
`generate_nb_cores_candidates` from `hpo.utils`, the host `CPUinfo`, and
`launch_and_wait`) are opaque: they live in an `Env` record, and every call
the embedded code makes to one of them is recorded as an `Event` so that
theorems can speak about which collaborator was invoked with which arguments.
Computations run in the monad `Eff`, which threads the event trace and
propagates Python exceptions.
-/

namespace HpoOptuna

/-- Modelled from the spec: the `TuningMode` enumeration is defined in the
`hpo.utils` module, which is not part of the sources; §3 of the spec describes
it as "enumerated variant {LATENCY, THROUGHPUT, BOTH}". -/
inductive TuningMode where
  | LATENCY
  | THROUGHPUT
  | BOTH
deriving DecidableEq, Repr

/-- Python exceptions raised by the embedded code. -/
inductive PyErr where
  | keyError (k : String)
  | typeError
  | indexError
  | zeroDivisionError
  | attributeError (n : String)
deriving DecidableEq, Repr

/-- Python attribute lookup on the `TuningMode` enum class: members resolve to
themselves, any other name raises `AttributeError`. -/
def TuningMode.attrLookup : String → Except PyErr TuningMode
  | "LATENCY" => .ok .LATENCY
  | "THROUGHPUT" => .ok .THROUGHPUT
  | "BOTH" => .ok .BOTH
  | n => .error (.attributeError n)

/-- Scalar Python values appearing in the parameter dictionaries. -/
inductive PyScalar where
  | int (n : Int)
  | str (s : String)
deriving DecidableEq, Repr

/-- Python values stored in the parameter dictionaries: a scalar or a (flat)
candidate list of scalars — the only shapes the module manipulates. -/
inductive PyVal where
  | scalar (x : PyScalar)
  | list (l : List PyScalar)
deriving DecidableEq, Repr

/-- Shorthand for an integer value. -/
def pyInt (n : Int) : PyVal := .scalar (.int n)

/-- Shorthand for a string value. -/
def pyStr (s : String) : PyVal := .scalar (.str s)

/-- `int(...)`-ness of a value: the operations `>` and `%` against an integer
succeed on integers and raise `TypeError` otherwise. -/
def asInt : PyVal → Except PyErr Int
  | .scalar (.int n) => .ok n
  | _ => .error .typeError

/-- Same for a scalar (used on the elements of a batch-size candidate list). -/
def asIntScalar : PyScalar → Except PyErr Int
  | .int n => .ok n
  | _ => .error .typeError

/-- A Python dictionary: ordered association list, keys unique in practice. -/
abbrev Dict := List (String × PyVal)

/-- `d[k]`, as an `Option`: first entry whose key is `k`. -/
def dictLookup : Dict → String → Option PyVal
  | [], _ => none
  | (k₀, v₀) :: rest, k => if k₀ = k then some v₀ else dictLookup rest k

/-- `k in d`. -/
def dictContains (d : Dict) (k : String) : Bool :=
  (dictLookup d k).isSome

/-- `d[k] = v`: replace the (first) entry holding `k`, or append a new one. -/
def dictSet : Dict → String → PyVal → Dict
  | [], k, v => [(k, v)]
  | (k₀, v₀) :: rest, k, v =>
    if k₀ = k then (k, v) :: rest else (k₀, v₀) :: dictSet rest k v

/-- `d.update(other)`: assign every entry of `other` into `d`, in order. -/
def dictUpdate (d other : Dict) : Dict :=
  other.foldl (fun acc kv => dictSet acc kv.1 kv.2) d

/-- Keys are pairwise distinct — the invariant every real Python dict enjoys. -/
def NodupKeys (d : Dict) : Prop :=
  (d.map Prod.fst).Nodup

instance (d : Dict) : Decidable (NodupKeys d) := by
  unfold NodupKeys
  infer_instance

/-- Host CPU information collaborator (`utils.CPUinfo`); the code only reads
`physical_core_nums`. -/
structure CPUinfo where
  physical_core_nums : Int
deriving DecidableEq, Repr

/-- Result of one `launch_and_wait` invocation. -/
structure ExperimentResult where
  latency : Rat
  throughput : Rat
deriving DecidableEq, Repr

/-- One observable call to an external collaborator. -/
inductive Event where
  | suggest (key : String) (choices : List PyScalar)
  | genInstances (batchSize : PyVal) (mode : TuningMode)
  | genCores (batchSize : Int) (mode : TuningMode) (nbInstances : Option Int)
  | launch (launcherParams mainParams : Dict)
deriving DecidableEq, Repr

/-- The opaque collaborators of the module, fixed for a run. -/
structure Env where
  cpu : CPUinfo
  suggest : String → List PyScalar → PyScalar
  genNbInstances : PyVal → TuningMode → CPUinfo → List Int
  genNbCores : Int → TuningMode → CPUinfo → Option Int → List Int
  launch : Dict → Dict → ExperimentResult

/-- Effectful computation: threads the event trace, propagates exceptions.
The trace accumulated before an exception is kept. -/
def Eff (α : Type) : Type :=
  List Event → Except PyErr α × List Event

def Eff.pureE (a : α) : Eff α := fun evs => (.ok a, evs)

def Eff.bindE (x : Eff α) (f : α → Eff β) : Eff β := fun evs =>
  match x evs with
  | (.ok a, evs₂) => f a evs₂
  | (.error e, evs₂) => (.error e, evs₂)

instance : Monad Eff where
  pure := Eff.pureE
  bind := Eff.bindE

/-- Run a computation on an initial trace. -/
def Eff.run (x : Eff α) : List Event → Except PyErr α × List Event := x

def emitE (e : Event) : Eff Unit := fun evs => (.ok (), evs ++ [e])

def throwE (e : PyErr) : Eff α := fun evs => (.error e, evs)

def liftE (x : Except PyErr α) : Eff α := fun evs => (x, evs)

/-- `d[k]` as an expression: `KeyError` when absent. -/
def dictGetE (d : Dict) (k : String) : Eff PyVal :=
  match dictLookup d k with
  | some v => pure v
  | none => throwE (.keyError k)

/-- `trial.suggest_categorical(key, choices)`: records the call, returns
whatever the optimizer chooses among the candidates. -/
def suggestE (env : Env) (key : String) (choices : List PyScalar) : Eff PyScalar :=
  fun evs => (.ok (env.suggest key choices), evs ++ [.suggest key choices])

/-- `generate_nb_instances_candidates(batch_size, mode, cpu_info)`. -/
def genInstancesE (env : Env) (batchSize : PyVal) (mode : TuningMode) :
    Eff (List Int) :=
  fun evs =>
    (.ok (env.genNbInstances batchSize mode env.cpu), evs ++ [.genInstances batchSize mode])

/-- `generate_nb_cores_candidates(batch_size, mode, cpu_info, nb_instances=...)`. -/
def genCoresE (env : Env) (batchSize : Int) (mode : TuningMode)
    (nbInstances : Option Int) : Eff (List Int) :=
  fun evs =>
    (.ok (env.genNbCores batchSize mode env.cpu nbInstances),
     evs ++ [.genCores batchSize mode nbInstances])

/-- `launch_and_wait(parameters, main_parameters)`. -/
def launchE (env : Env) (launcherParams mainParams : Dict) : Eff ExperimentResult :=
  fun evs => (.ok (env.launch launcherParams mainParams), evs ++ [.launch launcherParams mainParams])

/-- Lines 19-24, `prepare_parameter_for_optuna`: a one-candidate list collapses
to its sole element without sampling, a longer list is delegated to
`suggest_categorical`, a scalar passes through unchanged. -/
def prepare_parameter_for_optuna (env : Env) (key : String) (value : PyVal) :
    Eff PyVal :=
  match value with
  | .list [x] => pure (.scalar x)
  | .list l => do
    let v ← suggestE env key l
    pure (.scalar v)
  | v => pure v

/-- The dict comprehension of lines 34-37: prepare every entry of
`launcher_parameters`, in insertion order. -/
def prepareDictPhase (env : Env) : Dict → Eff Dict
  | [] => pure []
  | (k, v) :: rest => do
    let v2 ← prepare_parameter_for_optuna env k v
    let rest2 ← prepareDictPhase env rest
    pure ((k, v2) :: rest2)

/-- Lines 27-44, `specialize_objective`: bind the caller-supplied parameters
into the objective; each trial first prepares `launcher_parameters` and then
runs the wrapped objective on the prepared dictionary. -/
def specialize_objective (env : Env) (optimize_fn : Env → Dict → Dict → Eff α)
    (launcher_parameters main_parameters : Dict) : Eff α := do
  let prepared ← prepareDictPhase env launcher_parameters
  optimize_fn env prepared main_parameters

/-- Lines 70-79: when the caller did not pin "instances", generate the legal
candidates from `main_parameters["batch_size"]`, sample among them when there
are several, otherwise take the sole candidate (`[0]` on an empty candidate
list raises `IndexError`). -/
def sampleInstancesBlock (env : Env) (mode : TuningMode)
    (launcher_parameters main_parameters parameters : Dict) : Eff Dict :=
  if dictContains launcher_parameters "instances" then pure parameters
  else do
    let bs ← dictGetE main_parameters "batch_size"
    let cands ← genInstancesE env bs mode
    if cands.length > 1 then do
      let v ← suggestE env "instances" (cands.map PyScalar.int)
      pure (dictSet parameters "instances" (.scalar v))
    else
      match cands with
      | [] => throwE .indexError
      | c :: _ => pure (dictSet parameters "instances" (pyInt c))

/-- Shared shape of lines 81-92: sample a categorical default for `key` unless
the caller supplied that key. -/
def suggestDefault (env : Env) (launcher_parameters parameters : Dict)
    (key : String) (choices : List PyScalar) : Eff Dict :=
  if dictContains launcher_parameters key then pure parameters
  else do
    let v ← suggestE env key choices
    pure (dictSet parameters key (.scalar v))

/-- Lines 62-92: assemble the generated defaults, skipping every key already
present in `launcher_parameters`. -/
def samplePhase (env : Env) (mode : TuningMode)
    (launcher_parameters main_parameters : Dict) : Eff Dict := do
  let parameters : Dict := [("instances", pyInt 1)]
  let parameters ← sampleInstancesBlock env mode launcher_parameters main_parameters parameters
  let parameters ← suggestDefault env launcher_parameters parameters "openmp"
      [.str "openmp", .str "iomp"]
  let parameters ← suggestDefault env launcher_parameters parameters "allocator"
      [.str "default", .str "tcmalloc", .str "jemalloc"]
  let parameters ← suggestDefault env launcher_parameters parameters "huge_pages"
      [.str "on", .str "off"]
  pure parameters

/-- Lines 111-112, `list(filter(lambda size: size % parameters["instances"] == 0,
batch_size))`: Python `%` raises on a zero modulus and on non-integer operands. -/
def filterBatch (inst : Int) : List PyScalar → Eff (List PyScalar)
  | [] => pure []
  | v :: vs => do
    let n ← liftE (asIntScalar v)
    if inst = 0 then throwE .zeroDivisionError
    else do
      let rest ← filterBatch inst vs
      pure (if n % inst = 0 then v :: rest else rest)

/-- Lines 99-118, the tail of the post-merge phase once the (clamped) integer
instance count `inst` held by `parameters["instances"]` is known: sample
"nb_cores" from the candidates generated with the dummy batch size 1 and
`nb_instances=inst`, filter a multi-candidate batch size by divisibility by
`inst`, store it back into `main_parameters` (an in-place mutation of the
caller's dict), and launch. The dictionaries finally passed to the launcher
are returned alongside the result so that theorems can inspect them. -/
def coresBatchLaunch (env : Env) (mode : TuningMode) (inst : Int)
    (parameters main_parameters : Dict) : Eff (ExperimentResult × Dict × Dict) := do
  let coresCands ← genCoresE env 1 mode (some inst)
  let nbCores ← suggestE env "nb_cores" (coresCands.map PyScalar.int)
  let parameters := dictSet parameters "nb_cores" (.scalar nbCores)
  let batch ← dictGetE main_parameters "batch_size"
  let batch2 ←
    match batch with
    | .list l =>
      if l.length > 1 then do
        let l2 ← filterBatch inst l
        pure (PyVal.list l2)
      else pure (PyVal.list l)
    | v => pure v
  let main_parameters := dictSet main_parameters "batch_size" batch2
  let experiment_result ← launchE env parameters main_parameters
  pure (experiment_result, parameters, main_parameters)

/-- Lines 96-118, everything after `parameters.update(launcher_parameters)`:
clamp "instances" to the physical core count (lines 96-97, a `TypeError` when
the merged value is not an integer), re-read the now-integer instance count,
then run the tail (lines 99-118, `coresBatchLaunch`). -/
def postMergePhase (env : Env) (mode : TuningMode)
    (parameters main_parameters : Dict) : Eff (ExperimentResult × Dict × Dict) := do
  let instVal ← dictGetE parameters "instances"
  let instInt ← liftE (asInt instVal)
  let parameters :=
    if instInt > env.cpu.physical_core_nums then
      dictSet parameters "instances" (pyInt env.cpu.physical_core_nums)
    else parameters
  let instVal2 ← dictGetE parameters "instances"
  let inst ← liftE (asInt instVal2)
  coresBatchLaunch env mode inst parameters main_parameters

/-- Lines 47-118, `_optimize_latency_and_throughput` (after the `None`
defaulting of lines 53-58, which an empty dict argument represents): sampling
phase, merge of the caller overrides (`parameters.update(launcher_parameters)`,
line 94), then the post-merge phase. -/
def _optimize_latency_and_throughput (env : Env) (mode : TuningMode)
    (launcher_parameters main_parameters : Dict) :
    Eff (ExperimentResult × Dict × Dict) := do
  let parameters ← samplePhase env mode launcher_parameters main_parameters
  postMergePhase env mode (dictUpdate parameters launcher_parameters) main_parameters

/-- Lines 121-131, `optimize_latency_and_throughput`: run under BOTH, return
the ordered pair (latency, throughput). -/
def optimize_latency_and_throughput (env : Env)
    (launcher_parameters main_parameters : Dict) : Eff (Rat × Rat) := do
  let r ← _optimize_latency_and_throughput env .BOTH launcher_parameters main_parameters
  pure (r.1.latency, r.1.throughput)

/-- Lines 134-142, `optimize_latency`: run under LATENCY, return `.latency`. -/
def optimize_latency (env : Env) (launcher_parameters main_parameters : Dict) :
    Eff Rat := do
  let r ← _optimize_latency_and_throughput env .LATENCY launcher_parameters main_parameters
  pure r.1.latency

/-- Lines 145-153, `optimize_throughput`: run under THROUGHPUT, return
`.throughput`. -/
def optimize_throughput (env : Env) (launcher_parameters main_parameters : Dict) :
    Eff Rat := do
  let r ← _optimize_latency_and_throughput env .THROUGHPUT launcher_parameters main_parameters
  pure r.1.throughput

/-- Optimization direction of a study. -/
inductive Direction where
  | minimize
  | maximize
deriving DecidableEq, Repr

/-- The direction keyword passed to the study constructor: a single
`direction=...` or a `directions=[...]` list. -/
inductive Directions where
  | single (d : Direction)
  | multi (ds : List Direction)
deriving DecidableEq, Repr

/-- Sampler class selected by the driver. -/
inductive SamplerKind where
  | TPESampler
  | NSGAIISampler
deriving DecidableEq, Repr

/-- Study constructor selected by the driver: `optuna.create_study` or
`optuna.multi_objective.create_study`. -/
inductive StudyKind where
  | singleObjective
  | multiObjective
deriving DecidableEq, Repr

/-- Lines 164-168, the `mode2directions` table. -/
def mode2directions : TuningMode → Directions
  | .LATENCY => .single .minimize
  | .THROUGHPUT => .single .maximize
  | .BOTH => .multi [.minimize, .maximize]

/-- Lines 170-174, the `mode2sampler` table. -/
def mode2sampler : TuningMode → SamplerKind
  | .LATENCY => .TPESampler
  | .THROUGHPUT => .TPESampler
  | .BOTH => .NSGAIISampler

/-- Lines 176-180, the `mode2create_study` table. -/
def mode2create_study : TuningMode → StudyKind
  | .LATENCY => .singleObjective
  | .THROUGHPUT => .singleObjective
  | .BOTH => .multiObjective

/-- Lines 201-237 of `optuna_tune`: the files written after the trial loop, in
order, paired with the outcome. The study pickle is saved first (lines
201-202); line 210 then evaluates `TuningMode.LATENCY_AND_THROUGHPUT`, a
Python attribute lookup on the enum class, before comparing it with `mode`;
`AttributeError` aborts the reporting. -/
def optuna_tune_outputs (mode : TuningMode) (exp_name : String) :
    Except PyErr Unit × List String :=
  let files := ["outputs/" ++ exp_name ++ "_study.pkl"]
  match TuningMode.attrLookup "LATENCY_AND_THROUGHPUT" with
  | .error e => (.error e, files)
  | .ok m =>
    if mode = m then
      (.ok (),
       files ++ ["outputs/" ++ exp_name ++ "_importances.csv",
                 "outputs/" ++ exp_name ++ "_pareto_front.png"])
    else
      (.ok (), files ++ ["outputs/" ++ exp_name ++ "_importances_and_values.csv"])

/-- Concrete collaborator instantiation used by the concrete-input theorems:
an 8-core host, an optimizer that always picks 3 for "nb_cores" and the first
candidate otherwise, fixed candidate generators and a fixed launcher result. -/
def envEx : Env where
  cpu := { physical_core_nums := 8 }
  suggest := fun key choices =>
    if key = "nb_cores" then .int 3 else choices.headD (.int 0)
  genNbInstances := fun _ _ _ => [1, 2]
  genNbCores := fun _ _ _ _ => [3, 4]
  launch := fun _ _ => { latency := 5, throughput := 7 }

/-- Concrete witness run inputs: caller pins "allocator" and an oversized
"instances", batch-size candidates [16, 17, 32]. -/
def lpW : Dict := [("allocator", pyStr "jemalloc"), ("instances", pyInt 100)]

/-- Witness-run main parameters. -/
def mpW : Dict := [("batch_size", PyVal.list [.int 16, .int 17, .int 32])]

/-- Witness-run launcher result (fixed by `envEx`). -/
def resW : ExperimentResult := { latency := 5, throughput := 7 }

/-- The configuration the witness run passes to the launcher. -/
def PW : Dict :=
  [("instances", pyInt 8), ("openmp", pyStr "openmp"), ("huge_pages", pyStr "on"),
   ("allocator", pyStr "jemalloc"), ("nb_cores", pyInt 3)]

/-- The main parameters after the witness run (batch filtered to [16, 32]). -/
def MW : Dict := [("batch_size", PyVal.list [.int 16, .int 32])]

/-- Full collaborator-call trace of the witness run. -/
def traceW : List Event :=
  [.suggest "openmp" [.str "openmp", .str "iomp"],
   .suggest "huge_pages" [.str "on", .str "off"],
   .genCores 1 .BOTH (some 8),
   .suggest "nb_cores" [.int 3, .int 4],
   .launch PW MW]

/-- The configuration the clamping witness run of `postMergePhase` passes to
the launcher. -/
def P3W : Dict := [("instances", pyInt 8), ("nb_cores", pyInt 3)]

/-- Main parameters after the clamping witness run. -/
def M3W : Dict := [("batch_size", pyInt 16)]

/-- Trace of the clamping witness run. -/
def trace3W : List Event :=
  [.genCores 1 .BOTH (some 8),
   .suggest "nb_cores" [.int 3, .int 4],
   .launch P3W M3W]

section Lemmas

@[simp] theorem run_pure (a : α) (evs : List Event) :
    Eff.run (pure a) evs = (.ok a, evs) := rfl

@[simp] theorem run_bind (x : Eff α) (f : α → Eff β) (evs : List Event) :
    Eff.run (x >>= f) evs =
      match Eff.run x evs with
      | (.ok a, evs₂) => Eff.run (f a) evs₂
      | (.error e, evs₂) => (.error e, evs₂) := rfl

@[simp] theorem run_emitE (e : Event) (evs : List Event) :
    Eff.run (emitE e) evs = (.ok (), evs ++ [e]) := rfl

@[simp] theorem run_throwE (e : PyErr) (evs : List Event) :
    Eff.run (throwE e : Eff α) evs = (.error e, evs) := rfl

@[simp] theorem run_liftE (x : Except PyErr α) (evs : List Event) :
    Eff.run (liftE x) evs = (x, evs) := rfl

@[simp] theorem run_dictGetE (d : Dict) (k : String) (evs : List Event) :
    Eff.run (dictGetE d k) evs =
      (match dictLookup d k with
       | some v => (.ok v, evs)
       | none => (.error (.keyError k), evs)) := by
  unfold dictGetE
  cases dictLookup d k <;> rfl

@[simp] theorem run_suggestE (env : Env) (key : String) (choices : List PyScalar)
    (evs : List Event) :
    Eff.run (suggestE env key choices) evs =
      (.ok (env.suggest key choices), evs ++ [.suggest key choices]) := rfl

@[simp] theorem run_genInstancesE (env : Env) (b : PyVal) (mode : TuningMode)
    (evs : List Event) :
    Eff.run (genInstancesE env b mode) evs =
      (.ok (env.genNbInstances b mode env.cpu), evs ++ [.genInstances b mode]) := rfl

@[simp] theorem run_genCoresE (env : Env) (b : Int) (mode : TuningMode)
    (oi : Option Int) (evs : List Event) :
    Eff.run (genCoresE env b mode oi) evs =
      (.ok (env.genNbCores b mode env.cpu oi), evs ++ [.genCores b mode oi]) := rfl

@[simp] theorem run_launchE (env : Env) (P M : Dict) (evs : List Event) :
    Eff.run (launchE env P M) evs =
      (.ok (env.launch P M), evs ++ [.launch P M]) := rfl

theorem dictLookup_dictSet_self (d : Dict) (k : String) (v : PyVal) :
    dictLookup (dictSet d k v) k = some v := by
  induction d with
  | nil => simp [dictSet, dictLookup]
  | cons kv rest ih =>
    obtain ⟨k₀, v₀⟩ := kv
    by_cases h : k₀ = k
    · simp [dictSet, dictLookup, h]
    · simp [dictSet, dictLookup, h, ih]

theorem dictLookup_dictSet_ne (d : Dict) (k k' : String) (v : PyVal)
    (h : k' ≠ k) :
    dictLookup (dictSet d k v) k' = dictLookup d k' := by
  have hne : ¬ k = k' := fun hh => h hh.symm
  induction d with
  | nil => simp [dictSet, dictLookup, hne]
  | cons kv rest ih =>
    obtain ⟨k₀, v₀⟩ := kv
    by_cases hk : k₀ = k
    · subst hk
      simp [dictSet, dictLookup, hne]
    · simp only [dictSet, if_neg hk, dictLookup]
      by_cases hk' : k₀ = k'
      · simp [hk']
      · simp [hk', ih]

theorem dictContains_eq_false_of_not_mem (o : Dict) (k : String)
    (h : k ∉ o.map Prod.fst) : dictContains o k = false := by
  induction o with
  | nil => rfl
  | cons kv rest ih =>
    obtain ⟨k₀, v₀⟩ := kv
    simp only [List.map_cons, List.mem_cons] at h
    push_neg at h
    have h1 : ¬ k₀ = k := fun hh => h.1 hh.symm
    simp only [dictContains, dictLookup, if_neg h1]
    exact ih h.2

theorem dictUpdate_nil (d : Dict) : dictUpdate d [] = d := rfl

theorem dictUpdate_cons (d : Dict) (k : String) (v : PyVal) (rest : Dict) :
    dictUpdate d ((k, v) :: rest) = dictUpdate (dictSet d k v) rest := rfl

theorem dictLookup_dictUpdate_of_not_contains (o : Dict) :
    ∀ (d : Dict) (k : String), dictContains o k = false →
      dictLookup (dictUpdate d o) k = dictLookup d k := by
  induction o with
  | nil => intro d k _; rfl
  | cons kv rest ih =>
    intro d k h
    obtain ⟨k₀, v₀⟩ := kv
    simp only [dictContains, dictLookup] at h
    by_cases hk : k₀ = k
    · simp [hk] at h
    · rw [dictUpdate_cons]
      rw [ih (dictSet d k₀ v₀) k (by simpa [dictContains, hk] using h)]
      exact dictLookup_dictSet_ne d k₀ k v₀ (fun hh => hk hh.symm)

theorem dictLookup_dictUpdate_of_lookup (o : Dict) :
    ∀ (d : Dict) (k : String) (v : PyVal), NodupKeys o →
      dictLookup o k = some v →
      dictLookup (dictUpdate d o) k = some v := by
  induction o with
  | nil => intro d k v _ h; simp [dictLookup] at h
  | cons kv rest ih =>
    intro d k v hnd h
    obtain ⟨k₀, v₀⟩ := kv
    unfold NodupKeys at hnd
    simp only [List.map_cons, List.nodup_cons] at hnd
    by_cases hk : k₀ = k
    · subst hk
      simp only [dictLookup, if_pos rfl] at h
      rw [dictUpdate_cons]
      rw [dictLookup_dictUpdate_of_not_contains rest (dictSet d k₀ v₀) k₀
        (dictContains_eq_false_of_not_mem rest k₀ hnd.1)]
      rw [dictLookup_dictSet_self]
      exact congrArg some (Option.some.inj h)
    · simp only [dictLookup, if_neg hk] at h
      rw [dictUpdate_cons]
      exact ih (dictSet d k₀ v₀) k v hnd.2 h

theorem dictContains_of_lookup (d : Dict) (k : String) (v : PyVal)
    (h : dictLookup d k = some v) : dictContains d k = true := by
  simp [dictContains, h]

theorem pyInt_inj (a b : Int) (h : pyInt a = pyInt b) : a = b := by
  unfold pyInt at h
  injection h with h
  injection h

theorem suggestDefault_spec (env : Env) (lp params : Dict) (key : String)
    (choices : List PyScalar) (evs : List Event) :
    ∃ t params',
      Eff.run (suggestDefault env lp params key choices) evs = (.ok params', evs ++ t) ∧
      (∀ e ∈ t, e = Event.suggest key choices ∧ dictContains lp key = false) ∧
      (∀ k, k ≠ key → dictLookup params' k = dictLookup params k) ∧
      (dictContains lp key = true → params' = params ∧ t = []) := by
  cases hc : dictContains lp key with
  | true =>
    refine ⟨[], params, ?_, ?_, ?_, ?_⟩
    · simp [suggestDefault, hc]
    · simp
    · intro k _; rfl
    · intro _; exact ⟨rfl, rfl⟩
  | false =>
    refine ⟨[.suggest key choices],
      dictSet params key (.scalar (env.suggest key choices)), ?_, ?_, ?_, ?_⟩
    · simp [suggestDefault, hc, Eff.run, Bind.bind, Eff.bindE, suggestE, Pure.pure, Eff.pureE]
    · intro e he
      simp only [List.mem_singleton] at he
      exact ⟨he, rfl⟩
    · intro k hk
      exact dictLookup_dictSet_ne params key k _ hk
    · intro hh; exact Bool.noConfusion hh

theorem sampleInstancesBlock_spec (env : Env) (mode : TuningMode)
    (lp mp params : Dict) (evs : List Event) :
    ∃ t res,
      Eff.run (sampleInstancesBlock env mode lp mp params) evs = (res, evs ++ t) ∧
      (∀ e ∈ t, (∃ c, e = Event.suggest "instances" c ∧ dictContains lp "instances" = false) ∨
                 ∃ b m, e = Event.genInstances b m) ∧
      (∀ params', res = .ok params' → ∀ k, k ≠ "instances" →
        dictLookup params' k = dictLookup params k) ∧
      (dictContains lp "instances" = true → res = .ok params ∧ t = []) ∧
      (dictContains lp "instances" = false → dictLookup mp "batch_size" = none →
        res = .error (.keyError "batch_size") ∧ t = []) := by
  cases hc : dictContains lp "instances" with
  | true =>
    refine ⟨[], .ok params, ?_, ?_, ?_, ?_, ?_⟩
    · simp [sampleInstancesBlock, hc]
    · simp
    · intro params' hp k _
      cases hp; rfl
    · intro _; exact ⟨rfl, rfl⟩
    · intro hh; exact Bool.noConfusion hh
  | false =>
    cases hb : dictLookup mp "batch_size" with
    | none =>
      refine ⟨[], .error (.keyError "batch_size"), ?_, ?_, ?_, ?_, ?_⟩
      · simp [sampleInstancesBlock, hc, hb, Eff.run, Bind.bind, Eff.bindE, dictGetE, throwE]
      · simp
      · intro params' hp; cases hp
      · intro hh; exact Bool.noConfusion hh
      · intro _ _; exact ⟨rfl, rfl⟩
    | some bs =>
      by_cases hl : (env.genNbInstances bs mode env.cpu).length > 1
      · refine ⟨[.genInstances bs mode,
            .suggest "instances" ((env.genNbInstances bs mode env.cpu).map PyScalar.int)],
          .ok (dictSet params "instances"
            (.scalar (env.suggest "instances"
              ((env.genNbInstances bs mode env.cpu).map PyScalar.int)))), ?_, ?_, ?_, ?_, ?_⟩
        · simp [sampleInstancesBlock, hc, hb, hl, Eff.run, Bind.bind, Eff.bindE, dictGetE,
            genInstancesE, suggestE, Pure.pure, Eff.pureE]
        · intro e he
          simp only [List.mem_cons, List.mem_singleton] at he
          rcases he with he | he | he
          · right; exact ⟨bs, mode, he⟩
          · left; exact ⟨_, he, rfl⟩
          · cases he
        · intro params' hp k hk
          cases hp
          exact dictLookup_dictSet_ne params "instances" k _ hk
        · intro hh; exact Bool.noConfusion hh
        · intro _ hh; exact Option.noConfusion hh
      · cases hcand : env.genNbInstances bs mode env.cpu with
        | nil =>
          refine ⟨[.genInstances bs mode], .error .indexError, ?_, ?_, ?_, ?_, ?_⟩
          · simp [sampleInstancesBlock, hc, hb, hcand, Eff.run, Bind.bind, Eff.bindE, dictGetE,
              genInstancesE, throwE, Pure.pure, Eff.pureE]
          · intro e he
            simp only [List.mem_singleton] at he
            right; exact ⟨bs, mode, he⟩
          · intro params' hp; cases hp
          · intro hh; exact Bool.noConfusion hh
          · intro _ hh; exact Option.noConfusion hh
        | cons c rest =>
          have hr : ¬ 0 < rest.length := by
            rw [hcand] at hl
            simpa using hl
          refine ⟨[.genInstances bs mode], .ok (dictSet params "instances" (pyInt c)),
            ?_, ?_, ?_, ?_, ?_⟩
          · simp [sampleInstancesBlock, hc, hb, hcand, Eff.run, Bind.bind, Eff.bindE, dictGetE,
              genInstancesE, Pure.pure, Eff.pureE, hr]
          · intro e he
            simp only [List.mem_singleton] at he
            right; exact ⟨bs, mode, he⟩
          · intro params' hp k hk
            cases hp
            exact dictLookup_dictSet_ne params "instances" k _ hk
          · intro hh; exact Bool.noConfusion hh
          · intro _ hh; exact Option.noConfusion hh

theorem samplePhase_spec (env : Env) (mode : TuningMode) (lp mp : Dict)
    (evs : List Event) :
    ∃ t res,
      Eff.run (samplePhase env mode lp mp) evs = (res, evs ++ t) ∧
      (∀ e ∈ t,
        (∃ k c, e = Event.suggest k c ∧ dictContains lp k = false ∧ k ≠ "nb_cores") ∨
        ∃ b m, e = Event.genInstances b m) ∧
      (dictContains lp "instances" = true → ∃ params', res = .ok params') ∧
      (dictContains lp "instances" = false → dictLookup mp "batch_size" = none →
        res = .error (.keyError "batch_size") ∧ t = []) := by
  obtain ⟨t₀, res₀, h₀, hev₀, hlk₀, hcT₀, hcF₀⟩ :=
    sampleInstancesBlock_spec env mode lp mp [("instances", pyInt 1)] evs
  cases res₀ with
  | error e =>
    refine ⟨t₀, .error e, ?_, ?_, ?_, ?_⟩
    · simp only [samplePhase, run_bind, h₀]
    · intro ev he
      rcases hev₀ ev he with ⟨c, hc1, hc2⟩ | hgen
      · exact Or.inl ⟨"instances", c, hc1, hc2, by decide⟩
      · exact Or.inr hgen
    · intro hcT
      rcases hcT₀ hcT with ⟨hok, _⟩
      exact Except.noConfusion hok
    · intro h1 h2
      rcases hcF₀ h1 h2 with ⟨herr, ht⟩
      exact ⟨by rw [← herr], ht⟩
  | ok p₁ =>
    obtain ⟨t₁, p₂, h₁, hev₁, _, _⟩ :=
      suggestDefault_spec env lp p₁ "openmp" [.str "openmp", .str "iomp"] (evs ++ t₀)
    obtain ⟨t₂, p₃, h₂, hev₂, _, _⟩ :=
      suggestDefault_spec env lp p₂ "allocator"
        [.str "default", .str "tcmalloc", .str "jemalloc"] (evs ++ t₀ ++ t₁)
    obtain ⟨t₃, p₄, h₃, hev₃, _, _⟩ :=
      suggestDefault_spec env lp p₃ "huge_pages" [.str "on", .str "off"]
        (evs ++ t₀ ++ t₁ ++ t₂)
    refine ⟨t₀ ++ (t₁ ++ (t₂ ++ t₃)), .ok p₄, ?_, ?_, ?_, ?_⟩
    · simp only [samplePhase, run_bind, h₀, h₁, h₂, h₃, run_pure]
      simp [List.append_assoc]
    · intro ev he
      simp only [List.mem_append] at he
      rcases he with he | he | he | he
      · rcases hev₀ ev he with ⟨c, hc1, hc2⟩ | hgen
        · exact Or.inl ⟨"instances", c, hc1, hc2, by decide⟩
        · exact Or.inr hgen
      · rcases hev₁ ev he with ⟨hc1, hc2⟩
        exact Or.inl ⟨"openmp", _, hc1, hc2, by decide⟩
      · rcases hev₂ ev he with ⟨hc1, hc2⟩
        exact Or.inl ⟨"allocator", _, hc1, hc2, by decide⟩
      · rcases hev₃ ev he with ⟨hc1, hc2⟩
        exact Or.inl ⟨"huge_pages", _, hc1, hc2, by decide⟩
    · intro _; exact ⟨p₄, rfl⟩
    · intro h1 h2
      rcases hcF₀ h1 h2 with ⟨hok, _⟩
      exact Except.noConfusion hok

theorem base_decompose (env : Env) (mode : TuningMode) (lp mp : Dict)
    (evs : List Event) (out : Except PyErr (ExperimentResult × Dict × Dict))
    (evs₂ : List Event)
    (h : Eff.run (_optimize_latency_and_throughput env mode lp mp) evs = (out, evs₂)) :
    ∃ resS evsS, Eff.run (samplePhase env mode lp mp) evs = (resS, evsS) ∧
      ((∃ params₁, resS = .ok params₁ ∧
        Eff.run (postMergePhase env mode (dictUpdate params₁ lp) mp) evsS = (out, evs₂)) ∨
       (∃ e, resS = .error e ∧ out = .error e ∧ evs₂ = evsS)) := by
  rcases hS : Eff.run (samplePhase env mode lp mp) evs with ⟨resS, evsS⟩
  simp only [_optimize_latency_and_throughput, run_bind, hS] at h
  cases resS with
  | ok params₁ =>
    exact ⟨.ok params₁, evsS, rfl, Or.inl ⟨params₁, rfl, h⟩⟩
  | error e =>
    exact ⟨.error e, evsS, rfl, Or.inr ⟨e, rfl, (Prod.mk.injEq _ _ _ _ ▸ h).1.symm ▸ rfl, ((Prod.mk.injEq _ _ _ _ ▸ h).2).symm⟩⟩

theorem filterBatch_ok (inst : Int) :
    ∀ (l : List PyScalar) (evs : List Event) (l₂ : List PyScalar)
      (evs₂ : List Event),
      Eff.run (filterBatch inst l) evs = (.ok l₂, evs₂) →
      evs₂ = evs ∧
      l₂ = l.filter (fun s => match s with
        | .int n => decide (n % inst = 0)
        | .str _ => false) := by
  intro l
  induction l with
  | nil =>
    intro evs l₂ evs₂ h
    simp only [filterBatch, run_pure] at h
    obtain ⟨h1, h2⟩ := Prod.mk.injEq _ _ _ _ ▸ h
    exact ⟨h2.symm, by simpa using h1.symm⟩
  | cons v vs ih =>
    intro evs l₂ evs₂ h
    cases v with
    | str s =>
      simp only [filterBatch, run_bind, run_liftE, asIntScalar] at h
      simp at h
    | int n =>
      by_cases hz : inst = 0
      · simp only [filterBatch, run_bind, run_liftE, asIntScalar, if_pos hz,
          run_throwE] at h
        simp at h
      · rcases hr : Eff.run (filterBatch inst vs) evs with ⟨resR, evsR⟩
        simp only [filterBatch, run_bind, run_liftE, asIntScalar, if_neg hz, hr,
          run_pure] at h
        cases resR with
        | error e => simp at h
        | ok rest =>
          rw [Prod.mk.injEq] at h
          obtain ⟨h1, h2⟩ := h
          obtain ⟨hev, hfil⟩ := ih evs rest evsR hr
          injection h1 with h1
          subst hev
          refine ⟨h2.symm, ?_⟩
          rw [← h1]
          by_cases hd : n % inst = 0
          · have hdv : inst ∣ n := Int.dvd_of_emod_eq_zero hd
            simp [List.filter_cons, hd, hfil, hdv]
          · have hdv : ¬ inst ∣ n := fun hh => hd (Int.emod_eq_zero_of_dvd hh)
            simp [List.filter_cons, hd, hfil, hdv]

theorem coresBatchLaunch_ok (env : Env) (mode : TuningMode) (inst : Int)
    (params mp : Dict) (evs : List Event) (r : ExperimentResult) (P M : Dict)
    (evs₂ : List Event)
    (h : Eff.run (coresBatchLaunch env mode inst params mp) evs = (.ok (r, P, M), evs₂)) :
    P = dictSet params "nb_cores" (.scalar (env.suggest "nb_cores"
        ((env.genNbCores 1 mode env.cpu (some inst)).map PyScalar.int))) ∧
    r = env.launch P M ∧
    evs₂ = evs ++ [.genCores 1 mode (some inst),
      .suggest "nb_cores" ((env.genNbCores 1 mode env.cpu (some inst)).map PyScalar.int),
      .launch P M] ∧
    ∃ bv b₂, dictLookup mp "batch_size" = some bv ∧
      M = dictSet mp "batch_size" b₂ ∧
      ((∃ l, bv = PyVal.list l ∧ l.length > 1 ∧
        b₂ = PyVal.list (l.filter (fun s => match s with
          | PyScalar.int m => decide (m % inst = 0)
          | PyScalar.str _ => false))) ∨
       ((∀ l, bv = PyVal.list l → l.length ≤ 1) ∧ b₂ = bv)) := by
  cases hB : dictLookup mp "batch_size" with
  | none =>
    simp only [coresBatchLaunch, run_bind, run_genCoresE, run_suggestE, run_dictGetE, hB] at h
    simp at h
  | some bv =>
    cases bv with
    | scalar x =>
      simp only [coresBatchLaunch, run_bind, run_genCoresE, run_suggestE, run_dictGetE, hB,
        run_pure, run_launchE] at h
      rw [Prod.mk.injEq, Except.ok.injEq, Prod.mk.injEq, Prod.mk.injEq] at h
      obtain ⟨⟨hr, hP, hM⟩, htr⟩ := h
      subst hP; subst hM; subst hr; subst htr
      refine ⟨rfl, rfl, by simp, .scalar x, .scalar x, rfl, rfl, ?_⟩
      exact Or.inr ⟨fun l hl => PyVal.noConfusion hl, rfl⟩
    | list l =>
      by_cases hlen : l.length > 1
      · rcases hF : Eff.run (filterBatch inst l)
            (evs ++ [.genCores 1 mode (some inst)] ++
              [.suggest "nb_cores" ((env.genNbCores 1 mode env.cpu (some inst)).map PyScalar.int)])
          with ⟨resF, evsF⟩
        simp only [coresBatchLaunch, run_bind, run_genCoresE, run_suggestE, run_dictGetE, hB,
          if_pos hlen, hF, run_pure, run_launchE] at h
        cases resF with
        | error e => simp at h
        | ok l₂ =>
          obtain ⟨hevF, hl₂⟩ := filterBatch_ok inst l _ l₂ evsF hF
          rw [Prod.mk.injEq, Except.ok.injEq, Prod.mk.injEq, Prod.mk.injEq] at h
          obtain ⟨⟨hr, hP, hM⟩, htr⟩ := h
          subst hP; subst hM; subst hr; subst htr
          refine ⟨rfl, rfl, by rw [hevF]; simp, .list l, .list l₂, rfl, rfl, ?_⟩
          exact Or.inl ⟨l, rfl, hlen, by rw [hl₂]⟩
      · simp only [coresBatchLaunch, run_bind, run_genCoresE, run_suggestE, run_dictGetE, hB,
          if_neg hlen, run_pure, run_launchE] at h
        rw [Prod.mk.injEq, Except.ok.injEq, Prod.mk.injEq, Prod.mk.injEq] at h
        obtain ⟨⟨hr, hP, hM⟩, htr⟩ := h
        subst hP; subst hM; subst hr; subst htr
        refine ⟨rfl, rfl, by simp, .list l, .list l, rfl, rfl, ?_⟩
        refine Or.inr ⟨fun l' hl' => ?_, rfl⟩
        injection hl' with hl'
        subst hl'
        exact Nat.le_of_not_lt hlen

theorem postMergePhase_decompose (env : Env) (mode : TuningMode)
    (params mp : Dict) (evs : List Event)
    (y : ExperimentResult × Dict × Dict) (evs₂ : List Event)
    (h : Eff.run (postMergePhase env mode params mp) evs = (.ok y, evs₂)) :
    ∃ n : Int,
      dictLookup params "instances" = some (pyInt n) ∧
      Eff.run (coresBatchLaunch env mode
          (if n > env.cpu.physical_core_nums then env.cpu.physical_core_nums else n)
          (if n > env.cpu.physical_core_nums then
            dictSet params "instances" (pyInt env.cpu.physical_core_nums)
          else params) mp) evs = (.ok y, evs₂) ∧
      dictLookup (if n > env.cpu.physical_core_nums then
            dictSet params "instances" (pyInt env.cpu.physical_core_nums)
          else params) "instances" =
        some (pyInt (if n > env.cpu.physical_core_nums then
          env.cpu.physical_core_nums else n)) := by
  cases hIV : dictLookup params "instances" with
  | none =>
    simp only [postMergePhase, run_bind, run_dictGetE, hIV] at h
    simp at h
  | some instVal =>
    cases instVal with
    | list l =>
      simp only [postMergePhase, run_bind, run_dictGetE, hIV, run_liftE, asInt] at h
      simp at h
    | scalar s =>
      cases s with
      | str st =>
        simp only [postMergePhase, run_bind, run_dictGetE, hIV, run_liftE, asInt] at h
        simp at h
      | int n =>
        refine ⟨n, rfl, ?_, ?_⟩
        · by_cases hc : n > env.cpu.physical_core_nums
          · simp only [postMergePhase, run_bind, run_dictGetE, hIV, run_liftE, asInt,
              if_pos hc, dictLookup_dictSet_self, pyInt] at h
            simpa [if_pos hc, pyInt] using h
          · simp only [postMergePhase, run_bind, run_dictGetE, hIV, run_liftE, asInt,
              if_neg hc] at h
            simpa [if_neg hc] using h
        · by_cases hc : n > env.cpu.physical_core_nums
          · simp [if_pos hc, dictLookup_dictSet_self]
          · simp [if_neg hc, hIV, pyInt]

theorem postMergePhase_missing_batch (env : Env) (mode : TuningMode)
    (params mp : Dict) (evs : List Event)
    (hmp : dictLookup mp "batch_size" = none) :
    ∃ e t, Eff.run (postMergePhase env mode params mp) evs = (.error e, evs ++ t) ∧
      (∀ P M, Event.launch P M ∉ t) ∧
      (∀ n : Int, dictLookup params "instances" = some (pyInt n) →
        e = .keyError "batch_size") := by
  cases hIV : dictLookup params "instances" with
  | none =>
    refine ⟨.keyError "instances", [], ?_, by simp, ?_⟩
    · simp only [postMergePhase, run_bind, run_dictGetE, hIV]
      simp
    · intro n hn; simp [hIV] at hn
  | some instVal =>
    cases instVal with
    | list l =>
      refine ⟨.typeError, [], ?_, by simp, ?_⟩
      · simp only [postMergePhase, run_bind, run_dictGetE, hIV, run_liftE, asInt]
        simp
      · intro n hn
        simp [hIV, pyInt] at hn
    | scalar s =>
      cases s with
      | str st =>
        refine ⟨.typeError, [], ?_, by simp, ?_⟩
        · simp only [postMergePhase, run_bind, run_dictGetE, hIV, run_liftE, asInt]
          simp
        · intro n hn
          simp [hIV, pyInt] at hn
      | int n =>
        by_cases hc : n > env.cpu.physical_core_nums
        · refine ⟨.keyError "batch_size",
            [.genCores 1 mode (some env.cpu.physical_core_nums),
             .suggest "nb_cores"
               ((env.genNbCores 1 mode env.cpu (some env.cpu.physical_core_nums)).map
                 PyScalar.int)], ?_, ?_, fun _ _ => rfl⟩
          · simp only [postMergePhase, run_bind, run_dictGetE, hIV, run_liftE, asInt,
              if_pos hc, dictLookup_dictSet_self, pyInt, coresBatchLaunch, run_genCoresE,
              run_suggestE, hmp]
            simp
          · intro P M hmem
            simp only [List.mem_cons, List.mem_singleton, List.not_mem_nil, or_false] at hmem
            rcases hmem with hmem | hmem
            · exact Event.noConfusion hmem
            · exact Event.noConfusion hmem
        · refine ⟨.keyError "batch_size",
            [.genCores 1 mode (some n),
             .suggest "nb_cores"
               ((env.genNbCores 1 mode env.cpu (some n)).map PyScalar.int)], ?_, ?_,
            fun _ _ => rfl⟩
          · simp only [postMergePhase, run_bind, run_dictGetE, hIV, run_liftE, asInt,
              if_neg hc, coresBatchLaunch, run_genCoresE, run_suggestE, hmp]
            simp
          · intro P M hmem
            simp only [List.mem_cons, List.mem_singleton, List.not_mem_nil, or_false] at hmem
            rcases hmem with hmem | hmem
            · exact Event.noConfusion hmem
            · exact Event.noConfusion hmem

theorem dictLookup_ite_clamp (c : Prop) [Decidable c] (d : Dict) (w : PyVal)
    (k : String) (hk : k ≠ "instances") :
    dictLookup (if c then dictSet d "instances" w else d) k = dictLookup d k := by
  by_cases hc : c
  · simp [hc, dictLookup_dictSet_ne d "instances" k w hk]
  · simp [hc]

theorem base_ok_spec (env : Env) (mode : TuningMode) (lp mp : Dict)
    (evs : List Event) (r : ExperimentResult) (P M : Dict) (evs₂ : List Event)
    (h : Eff.run (_optimize_latency_and_throughput env mode lp mp) evs =
      (.ok (r, P, M), evs₂)) :
    ∃ (params₁ : Dict) (tS : List Event) (n inst : Int) (params₂ : Dict)
      (bv b₂ : PyVal),
      Eff.run (samplePhase env mode lp mp) evs = (.ok params₁, evs ++ tS) ∧
      (∀ e ∈ tS, (∃ k c, e = Event.suggest k c ∧ dictContains lp k = false ∧
          k ≠ "nb_cores") ∨
        ∃ b m, e = Event.genInstances b m) ∧
      dictLookup (dictUpdate params₁ lp) "instances" = some (pyInt n) ∧
      inst = (if n > env.cpu.physical_core_nums then env.cpu.physical_core_nums else n) ∧
      params₂ = (if n > env.cpu.physical_core_nums then
        dictSet (dictUpdate params₁ lp) "instances" (pyInt env.cpu.physical_core_nums)
        else dictUpdate params₁ lp) ∧
      dictLookup params₂ "instances" = some (pyInt inst) ∧
      P = dictSet params₂ "nb_cores" (.scalar (env.suggest "nb_cores"
        ((env.genNbCores 1 mode env.cpu (some inst)).map PyScalar.int))) ∧
      r = env.launch P M ∧
      evs₂ = (evs ++ tS) ++ [.genCores 1 mode (some inst),
        .suggest "nb_cores" ((env.genNbCores 1 mode env.cpu (some inst)).map PyScalar.int),
        .launch P M] ∧
      dictLookup mp "batch_size" = some bv ∧
      M = dictSet mp "batch_size" b₂ ∧
      ((∃ l, bv = PyVal.list l ∧ l.length > 1 ∧
        b₂ = PyVal.list (l.filter (fun s => match s with
          | PyScalar.int m => decide (m % inst = 0)
          | PyScalar.str _ => false))) ∨
       ((∀ l, bv = PyVal.list l → l.length ≤ 1) ∧ b₂ = bv)) := by
  obtain ⟨resS, evsS, hS, hcase⟩ := base_decompose env mode lp mp evs _ evs₂ h
  rcases hcase with ⟨params₁, hok, hPM⟩ | ⟨e, _, hout, _⟩
  swap
  · exact Except.noConfusion hout
  subst hok
  obtain ⟨tS, res, hrun, hev, _, _⟩ := samplePhase_spec env mode lp mp evs
  rw [hS] at hrun
  obtain ⟨hres, hevsS⟩ := Prod.mk.injEq _ _ _ _ ▸ hrun
  subst hevsS
  obtain ⟨n, hIVm, hCBL, hP2⟩ := postMergePhase_decompose env mode
    (dictUpdate params₁ lp) mp _ (r, P, M) evs₂ hPM
  obtain ⟨hPdef, hrdef, htr, bv, b₂, hbv, hM, hdisj⟩ :=
    coresBatchLaunch_ok env mode _ _ mp _ r P M evs₂ hCBL
  refine ⟨params₁, tS, n,
    (if n > env.cpu.physical_core_nums then env.cpu.physical_core_nums else n),
    (if n > env.cpu.physical_core_nums then
      dictSet (dictUpdate params₁ lp) "instances" (pyInt env.cpu.physical_core_nums)
      else dictUpdate params₁ lp), bv, b₂,
    hS, ?_, hIVm, rfl, rfl, hP2, hPdef, hrdef, htr, hbv, hM, hdisj⟩
  intro e he
  rcases hev e he with h1 | h2
  · exact Or.inl h1
  · exact Or.inr h2

end Lemmas

section Claims

/-- C6: `prepare_parameter_for_optuna` returns the sole element of a
one-candidate list without invoking the sampling mechanism (the trace is
unchanged), delegates a list of more than one candidate to
`suggest_categorical` for that key, and returns a non-list value unchanged. -/
theorem C6_prepare_parameter_cases :
    (∀ (env : Env) (key : String) (x : PyScalar) (evs : List Event),
      Eff.run (prepare_parameter_for_optuna env key (.list [x])) evs =
        (.ok (.scalar x), evs))
    ∧ (∀ (env : Env) (key : String) (x y : PyScalar) (rest : List PyScalar)
        (evs : List Event),
      Eff.run (prepare_parameter_for_optuna env key (.list (x :: y :: rest))) evs =
        (.ok (.scalar (env.suggest key (x :: y :: rest))),
         evs ++ [.suggest key (x :: y :: rest)]))
    ∧ (∀ (env : Env) (key : String) (x : PyScalar) (evs : List Event),
      Eff.run (prepare_parameter_for_optuna env key (.scalar x)) evs =
        (.ok (.scalar x), evs)) :=
  ⟨fun _ _ _ _ => rfl, fun _ _ _ _ _ _ => rfl, fun _ _ _ _ => rfl⟩

/-- C5: the trial value returned by the objective equals
`ExperimentResult.latency` under LATENCY, `.throughput` under THROUGHPUT, and
the ordered pair (latency, throughput) under BOTH — each wrapper runs the
shared body under its mode and extracts exactly that metric. -/
theorem C5_objective_returns_metrics :
    (∀ (env : Env) (lp mp : Dict) (evs : List Event),
      Eff.run (optimize_latency env lp mp) evs =
        match Eff.run (_optimize_latency_and_throughput env .LATENCY lp mp) evs with
        | (.ok r, evs₂) => (.ok r.1.latency, evs₂)
        | (.error e, evs₂) => (.error e, evs₂))
    ∧ (∀ (env : Env) (lp mp : Dict) (evs : List Event),
      Eff.run (optimize_throughput env lp mp) evs =
        match Eff.run (_optimize_latency_and_throughput env .THROUGHPUT lp mp) evs with
        | (.ok r, evs₂) => (.ok r.1.throughput, evs₂)
        | (.error e, evs₂) => (.error e, evs₂))
    ∧ (∀ (env : Env) (lp mp : Dict) (evs : List Event),
      Eff.run (optimize_latency_and_throughput env lp mp) evs =
        match Eff.run (_optimize_latency_and_throughput env .BOTH lp mp) evs with
        | (.ok r, evs₂) => (.ok (r.1.latency, r.1.throughput), evs₂)
        | (.error e, evs₂) => (.error e, evs₂)) := by
  refine ⟨fun env lp mp evs => ?_, fun env lp mp evs => ?_, fun env lp mp evs => ?_⟩
  all_goals
    rcases h : Eff.run (_optimize_latency_and_throughput env _ lp mp) evs with ⟨res, evs₂⟩
  all_goals
    cases res <;>
      simp [optimize_latency, optimize_throughput, optimize_latency_and_throughput, h]

/-- C9: the driver dispatch tables select minimize with a TPE sampler and a
single-objective study for LATENCY, maximize with a TPE sampler and a
single-objective study for THROUGHPUT, and [minimize, maximize] in that order
with an NSGA-II sampler and a multi-objective study for BOTH. -/
theorem C9_driver_dispatch :
    (mode2directions .LATENCY = .single .minimize
      ∧ mode2sampler .LATENCY = .TPESampler
      ∧ mode2create_study .LATENCY = .singleObjective)
    ∧ (mode2directions .THROUGHPUT = .single .maximize
      ∧ mode2sampler .THROUGHPUT = .TPESampler
      ∧ mode2create_study .THROUGHPUT = .singleObjective)
    ∧ (mode2directions .BOTH = .multi [.minimize, .maximize]
      ∧ mode2sampler .BOTH = .NSGAIISampler
      ∧ mode2create_study .BOTH = .multiObjective) :=
  ⟨⟨rfl, rfl, rfl⟩, ⟨rfl, rfl, rfl⟩, ⟨rfl, rfl, rfl⟩⟩

/-- C2 (code defect): for mode = BOTH the post-loop reporting never writes the
importances CSV or the Pareto-front image. Line 210 evaluates
`TuningMode.LATENCY_AND_THROUGHPUT`, which is not a member of the enum, so an
`AttributeError` aborts reporting right after the study pickle is saved. -/
theorem C2_both_reporting_aborts :
    optuna_tune_outputs .BOTH "exp" =
      (.error (.attributeError "LATENCY_AND_THROUGHPUT"), ["outputs/exp_study.pkl"])
    ∧ "outputs/exp_importances.csv" ∉ (optuna_tune_outputs .BOTH "exp").2
    ∧ "outputs/exp_pareto_front.png" ∉ (optuna_tune_outputs .BOTH "exp").2 :=
  ⟨rfl, by decide, by decide⟩

/-- C1 (amended): for every successful trial, every caller-supplied key other
than "instances" and "nb_cores" reaches the launcher with exactly the
caller-supplied (prepared) value, and no caller-supplied key other than
"nb_cores" is ever re-sampled; "nb_cores" is unconditionally re-sampled and
overwritten, and a caller-supplied integer "instances" is retained only up to
clamping at the physical core count. -/
theorem C1_override_theorem (env : Env) (mode : TuningMode) (lp mp : Dict)
    (evs : List Event) (r : ExperimentResult) (P M : Dict) (evs₂ : List Event)
    (hnd : NodupKeys lp)
    (h : Eff.run (_optimize_latency_and_throughput env mode lp mp) evs =
      (.ok (r, P, M), evs₂)) :
    (∀ k v, k ≠ "instances" → k ≠ "nb_cores" → dictLookup lp k = some v →
      dictLookup P k = some v)
    ∧ (∀ n : Int, dictLookup lp "instances" = some (pyInt n) →
      dictLookup P "instances" = some (pyInt
        (if n > env.cpu.physical_core_nums then env.cpu.physical_core_nums else n)))
    ∧ (∀ key c, Event.suggest key c ∈ evs₂ →
      Event.suggest key c ∈ evs ∨ dictContains lp key = false ∨ key = "nb_cores") := by
  obtain ⟨params₁, tS, n, inst, params₂, bv, b₂, hS, hev, hIVm, hinst, hp₂, hP2,
    hPdef, hrdef, htr, hbv, hM, hdisj⟩ := base_ok_spec env mode lp mp evs r P M evs₂ h
  refine ⟨?_, ?_, ?_⟩
  · intro k v hki hkn hv
    rw [hPdef, dictLookup_dictSet_ne _ "nb_cores" k _ hkn, hp₂,
      dictLookup_ite_clamp _ _ _ k hki]
    exact dictLookup_dictUpdate_of_lookup lp params₁ k v hnd hv
  · intro n' hv
    have hm : dictLookup (dictUpdate params₁ lp) "instances" = some (pyInt n') :=
      dictLookup_dictUpdate_of_lookup lp params₁ "instances" (pyInt n') hnd hv
    rw [hIVm] at hm
    injection hm with hm
    have hnn : n = n' := pyInt_inj n n' hm
    subst hnn
    rw [hPdef, dictLookup_dictSet_ne _ "nb_cores" "instances" _ (by decide), hP2, hinst]
  · intro key c hmem
    rw [htr] at hmem
    simp only [List.mem_append, List.mem_cons, List.not_mem_nil, or_false] at hmem
    rcases hmem with (hmem | hmem) | hmem | hmem | hmem
    · exact Or.inl hmem
    · rcases hev _ hmem with ⟨k', c', heq, hcont, _⟩ | ⟨b, m, heq⟩
      · injection heq with hk hc2
        subst hk
        exact Or.inr (Or.inl hcont)
      · exact Event.noConfusion heq
    · exact Event.noConfusion hmem
    · injection hmem with hk hc2
      exact Or.inr (Or.inr hk)
    · exact Event.noConfusion hmem

/-- C3: the "instances" value in every configuration passed to the launcher
never exceeds the host's reported physical core count, and whenever the value
held by the merged configuration exceeds it, the launcher receives exactly the
physical core count. -/
theorem C3_instances_clamped :
    (∀ (env : Env) (mode : TuningMode) (lp mp : Dict) (evs : List Event)
      (r : ExperimentResult) (P M : Dict) (evs₂ : List Event),
      Eff.run (_optimize_latency_and_throughput env mode lp mp) evs =
        (.ok (r, P, M), evs₂) →
      ∀ i : Int, dictLookup P "instances" = some (pyInt i) →
        i ≤ env.cpu.physical_core_nums)
    ∧ (∀ (env : Env) (mode : TuningMode) (params mp : Dict) (evs : List Event)
      (r : ExperimentResult) (P M : Dict) (evs₂ : List Event) (n : Int),
      dictLookup params "instances" = some (pyInt n) →
      n > env.cpu.physical_core_nums →
      Eff.run (postMergePhase env mode params mp) evs = (.ok (r, P, M), evs₂) →
      dictLookup P "instances" = some (pyInt env.cpu.physical_core_nums)) := by
  constructor
  · intro env mode lp mp evs r P M evs₂ h i hi
    obtain ⟨params₁, tS, n, inst, params₂, bv, b₂, hS, hev, hIVm, hinst, hp₂, hP2,
      hPdef, hrdef, htr, hbv, hM, hdisj⟩ := base_ok_spec env mode lp mp evs r P M evs₂ h
    have hPl : dictLookup P "instances" = some (pyInt inst) := by
      rw [hPdef, dictLookup_dictSet_ne _ "nb_cores" "instances" _ (by decide)]
      exact hP2
    rw [hPl] at hi
    injection hi with hi
    have : inst = i := pyInt_inj inst i hi
    subst this
    rw [hinst]
    by_cases hcmp : n > env.cpu.physical_core_nums
    · simp [hcmp]
    · simp only [if_neg hcmp]
      exact Int.not_lt.mp hcmp
  · intro env mode params mp evs r P M evs₂ n hn hgt h
    obtain ⟨n', hIV', hCBL, hP2⟩ :=
      postMergePhase_decompose env mode params mp evs (r, P, M) evs₂ h
    rw [hn] at hIV'
    injection hIV' with hIV'
    have hnn : n = n' := pyInt_inj n n' hIV'
    subst hnn
    obtain ⟨hPdef, _, _, _, _, _, _, _⟩ :=
      coresBatchLaunch_ok env mode _ _ mp _ r P M evs₂ hCBL
    rw [hPdef, dictLookup_dictSet_ne _ "nb_cores" "instances" _ (by decide), hP2,
      if_pos hgt]

/-- C4: when `main_parameters["batch_size"]` is a list with more than one
element, the batch-size value passed to the launcher is exactly the sublist of
candidates evenly divisible by the chosen instance count, in original order; a
single-element list or a scalar batch size is passed through unfiltered. -/
theorem C4_batch_filter_theorem (env : Env) (mode : TuningMode) (lp mp : Dict)
    (evs : List Event) (r : ExperimentResult) (P M : Dict) (evs₂ : List Event)
    (h : Eff.run (_optimize_latency_and_throughput env mode lp mp) evs =
      (.ok (r, P, M), evs₂)) :
    (∀ (l : List PyScalar) (i : Int),
      dictLookup mp "batch_size" = some (PyVal.list l) → l.length > 1 →
      dictLookup P "instances" = some (pyInt i) →
      dictLookup M "batch_size" = some (PyVal.list (l.filter (fun s => match s with
        | PyScalar.int m => decide (m % i = 0)
        | PyScalar.str _ => false))))
    ∧ (∀ l, dictLookup mp "batch_size" = some (PyVal.list l) → l.length ≤ 1 →
      dictLookup M "batch_size" = some (PyVal.list l))
    ∧ (∀ x, dictLookup mp "batch_size" = some (PyVal.scalar x) →
      dictLookup M "batch_size" = some (PyVal.scalar x)) := by
  obtain ⟨params₁, tS, n, inst, params₂, bv, b₂, hS, hev, hIVm, hinst, hp₂, hP2,
    hPdef, hrdef, htr, hbv, hM, hdisj⟩ := base_ok_spec env mode lp mp evs r P M evs₂ h
  have hPl : dictLookup P "instances" = some (pyInt inst) := by
    rw [hPdef, dictLookup_dictSet_ne _ "nb_cores" "instances" _ (by decide)]
    exact hP2
  have hMl : dictLookup M "batch_size" = some b₂ := by
    rw [hM]
    exact dictLookup_dictSet_self mp "batch_size" b₂
  refine ⟨?_, ?_, ?_⟩
  · intro l i hl hlen hi
    rw [hbv] at hl
    injection hl with hl
    subst hl
    rw [hPl] at hi
    injection hi with hi
    have : inst = i := pyInt_inj inst i hi
    subst this
    rcases hdisj with ⟨l', hl', hlen', hb₂⟩ | ⟨hshort, _⟩
    · injection hl' with hl'
      subst hl'
      rw [hMl, hb₂]
    · exact absurd hlen (Nat.not_lt.mpr (hshort l rfl))
  · intro l hl hlen
    rw [hbv] at hl
    injection hl with hl
    subst hl
    rcases hdisj with ⟨l', hl', hlen', _⟩ | ⟨_, hb₂⟩
    · injection hl' with hl'
      subst hl'
      exact absurd hlen' (Nat.not_lt.mpr hlen)
    · rw [hMl, hb₂]
  · intro x hx
    rw [hbv] at hx
    injection hx with hx
    subst hx
    rcases hdisj with ⟨l', hl', _, _⟩ | ⟨_, hb₂⟩
    · exact PyVal.noConfusion hl'
    · rw [hMl, hb₂]

/-- C7 (amended): the objective does mutate the caller's `main_parameters` in
place, but only at the "batch_size" key (replacing a multi-element candidate
list by its filtered sublist); every other entry is left unchanged. -/
theorem C7_mutation_theorem (env : Env) (mode : TuningMode) (lp mp : Dict)
    (evs : List Event) (r : ExperimentResult) (P M : Dict) (evs₂ : List Event)
    (h : Eff.run (_optimize_latency_and_throughput env mode lp mp) evs =
      (.ok (r, P, M), evs₂)) :
    (∀ k, k ≠ "batch_size" → dictLookup M k = dictLookup mp k) ∧
    ∃ b₂, M = dictSet mp "batch_size" b₂ := by
  obtain ⟨params₁, tS, n, inst, params₂, bv, b₂, hS, hev, hIVm, hinst, hp₂, hP2,
    hPdef, hrdef, htr, hbv, hM, hdisj⟩ := base_ok_spec env mode lp mp evs r P M evs₂ h
  constructor
  · intro k hk
    rw [hM]
    exact dictLookup_dictSet_ne mp "batch_size" k b₂ hk
  · exact ⟨b₂, hM⟩

/-- C8 (amended): when `main_parameters` lacks "batch_size", the objective
fails before the launcher is ever invoked; the failure is the lookup error for
"batch_size" whenever the caller did not supply "instances", or supplied it as
an integer — a non-integer caller "instances" raises a type error at the
clamping comparison first. -/
theorem C8_missing_batch_theorem (env : Env) (mode : TuningMode) (lp mp : Dict)
    (evs : List Event) (hnd : NodupKeys lp)
    (hmp : dictLookup mp "batch_size" = none) :
    ∃ e evs₂,
      Eff.run (_optimize_latency_and_throughput env mode lp mp) evs =
        (.error e, evs₂) ∧
      (∀ P M, Event.launch P M ∈ evs₂ → Event.launch P M ∈ evs) ∧
      (dictContains lp "instances" = false → e = .keyError "batch_size") ∧
      (∀ n : Int, dictLookup lp "instances" = some (pyInt n) →
        e = .keyError "batch_size") := by
  obtain ⟨t, res, hrun, hev, hok, herrcase⟩ := samplePhase_spec env mode lp mp evs
  cases hc : dictContains lp "instances" with
  | false =>
    obtain ⟨hres, ht⟩ := herrcase hc hmp
    subst hres
    subst ht
    refine ⟨.keyError "batch_size", evs, ?_, fun _ _ hm => hm, fun _ => rfl, fun _ _ => rfl⟩
    simp only [_optimize_latency_and_throughput, run_bind, hrun]
    simp
  | true =>
    obtain ⟨params₁, hres⟩ := hok hc
    subst hres
    obtain ⟨e, t', hpm, hnl, hkey⟩ := postMergePhase_missing_batch env mode
      (dictUpdate params₁ lp) mp (evs ++ t) hmp
    refine ⟨e, (evs ++ t) ++ t', ?_, ?_, ?_, ?_⟩
    · simp only [_optimize_latency_and_throughput, run_bind, hrun, hpm]
    · intro P M hmem
      simp only [List.mem_append] at hmem
      rcases hmem with (hmem | hmem) | hmem
      · exact hmem
      · rcases hev _ hmem with ⟨k', c', heq, _, _⟩ | ⟨b, m, heq⟩
        · exact Event.noConfusion heq
        · exact Event.noConfusion heq
      · exact absurd hmem (hnl P M)
    · intro hfalse; exact Bool.noConfusion hfalse
    · intro n' hv
      exact hkey n' (dictLookup_dictUpdate_of_lookup lp params₁ "instances"
        (pyInt n') hnd hv)

/-- C10: in every successful trial, the candidate set for "nb_cores" comes
from one call to the core-count candidate generator made with the constant
dummy batch size 1, the run's mode, and the (possibly clamped) instance count
actually passed to the launcher — the real batch size never reaches it. -/
theorem C10_nbcores_dummy_theorem (env : Env) (mode : TuningMode) (lp mp : Dict)
    (evs : List Event) (r : ExperimentResult) (P M : Dict) (evs₂ : List Event)
    (h : Eff.run (_optimize_latency_and_throughput env mode lp mp) evs =
      (.ok (r, P, M), evs₂)) :
    ∃ t, evs₂ = evs ++ t ∧
      (∀ b m oi, Event.genCores b m oi ∈ t → b = 1 ∧ m = mode ∧
        ∃ j : Int, oi = some j ∧ dictLookup P "instances" = some (pyInt j)) ∧
      (∀ c, Event.suggest "nb_cores" c ∈ t → ∃ j : Int,
        dictLookup P "instances" = some (pyInt j) ∧
        c = (env.genNbCores 1 mode env.cpu (some j)).map PyScalar.int) := by
  obtain ⟨params₁, tS, n, inst, params₂, bv, b₂, hS, hev, hIVm, hinst, hp₂, hP2,
    hPdef, hrdef, htr, hbv, hM, hdisj⟩ := base_ok_spec env mode lp mp evs r P M evs₂ h
  have hPl : dictLookup P "instances" = some (pyInt inst) := by
    rw [hPdef, dictLookup_dictSet_ne _ "nb_cores" "instances" _ (by decide)]
    exact hP2
  refine ⟨tS ++ [.genCores 1 mode (some inst),
    .suggest "nb_cores" ((env.genNbCores 1 mode env.cpu (some inst)).map PyScalar.int),
    .launch P M], by rw [htr]; simp, ?_, ?_⟩
  · intro b m oi hmem
    simp only [List.mem_append, List.mem_cons, List.not_mem_nil, or_false] at hmem
    rcases hmem with hmem | hmem | hmem | hmem
    · rcases hev _ hmem with ⟨k', c', heq, _, _⟩ | ⟨b', m', heq⟩
      · exact Event.noConfusion heq
      · exact Event.noConfusion heq
    · injection hmem with h1 h2 h3
      subst h1; subst h2; subst h3
      exact ⟨rfl, rfl, inst, rfl, hPl⟩
    · exact Event.noConfusion hmem
    · exact Event.noConfusion hmem
  · intro c hmem
    simp only [List.mem_append, List.mem_cons, List.not_mem_nil, or_false] at hmem
    rcases hmem with hmem | hmem | hmem | hmem
    · rcases hev _ hmem with ⟨k', c', heq, _, hknb⟩ | ⟨b', m', heq⟩
      · injection heq with hk hc2
        exact absurd hk.symm hknb
      · exact Event.noConfusion heq
    · exact Event.noConfusion hmem
    · injection hmem with h1 h2
      exact ⟨inst, hPl, h2⟩
    · exact Event.noConfusion hmem

/-- C1 (counterexample): the caller pins instances = 100 and nb_cores = 7;
the configuration actually passed to the launcher holds instances = 8 (the
physical core count) and nb_cores = 3 (the freshly sampled value), so the
assembled configuration does not retain the caller-supplied values for those
keys. -/
theorem C1_counterexample :
    (Eff.run (specialize_objective envEx
        (fun e lp mp => _optimize_latency_and_throughput e .BOTH lp mp)
        [("instances", pyInt 100), ("nb_cores", pyInt 7)]
        [("batch_size", pyInt 16)]) []).1 =
      .ok ({ latency := 5, throughput := 7 },
        [("instances", pyInt 8), ("openmp", pyStr "openmp"),
         ("allocator", pyStr "default"), ("huge_pages", pyStr "on"),
         ("nb_cores", pyInt 3)],
        [("batch_size", pyInt 16)])
    ∧ pyInt 3 ≠ pyInt 7 ∧ pyInt 8 ≠ pyInt 100 :=
  ⟨rfl, by decide, by decide⟩

/-- C7 (counterexample): with batch-size candidates [16, 17, 32] and caller
instances = 4, the run succeeds but the `main_parameters` dictionary after the
trial maps "batch_size" to [16, 32] — the objective mutated the caller's
mapping in place, so the next trial would not see the originally supplied
value. -/
theorem C7_counterexample :
    (Eff.run (_optimize_latency_and_throughput envEx .BOTH
        [("instances", pyInt 4)]
        [("batch_size", PyVal.list [.int 16, .int 17, .int 32])]) []).1 =
      .ok ({ latency := 5, throughput := 7 },
        [("instances", pyInt 4), ("openmp", pyStr "openmp"),
         ("allocator", pyStr "default"), ("huge_pages", pyStr "on"),
         ("nb_cores", pyInt 3)],
        [("batch_size", PyVal.list [.int 16, .int 32])])
    ∧ PyVal.list [.int 16, .int 32] ≠ PyVal.list [.int 16, .int 17, .int 32] :=
  ⟨rfl, by decide⟩

/-- C8 (counterexample): `main_parameters` lacks "batch_size", yet the first
trial fails with a `TypeError`, not a lookup error: the caller supplied a
non-integer "instances" value, and the clamping comparison of line 96 raises
before `main_parameters["batch_size"]` is ever read. -/
theorem C8_counterexample :
    (Eff.run (_optimize_latency_and_throughput envEx .BOTH
        [("instances", pyStr "2")] []) []).1 = .error .typeError
    ∧ PyErr.typeError ≠ PyErr.keyError "batch_size" :=
  ⟨rfl, by decide⟩

/-- Witness for `C1_override_theorem` at the concrete witness run: the pinned
"allocator" value is retained; the pinned "instances" value 100 is clamped. -/
theorem C1_override_theorem_witness :
    NodupKeys lpW ∧
    Eff.run (_optimize_latency_and_throughput envEx .BOTH lpW mpW) [] =
      (.ok (resW, PW, MW), traceW) ∧
    dictLookup PW "allocator" = some (pyStr "jemalloc") ∧
    dictLookup PW "instances" = some (pyInt 8) := by
  have H := C1_override_theorem envEx .BOTH lpW mpW [] resW PW MW traceW
    (by decide) rfl
  exact ⟨by decide, rfl,
    H.1 "allocator" (pyStr "jemalloc") (by decide) (by decide) rfl,
    (H.2.1 100 rfl).trans (by decide)⟩

/-- Witness for `C3_instances_clamped`: the launched instance count 8 respects
the 8-core host, and the oversized merged value 100 is clamped to exactly 8. -/
theorem C3_instances_clamped_witness :
    Eff.run (_optimize_latency_and_throughput envEx .BOTH lpW mpW) [] =
      (.ok (resW, PW, MW), traceW) ∧
    dictLookup PW "instances" = some (pyInt 8) ∧
    (8 : Int) ≤ envEx.cpu.physical_core_nums ∧
    dictLookup [("instances", pyInt 100)] "instances" = some (pyInt 100) ∧
    (100 : Int) > envEx.cpu.physical_core_nums ∧
    Eff.run (postMergePhase envEx .BOTH [("instances", pyInt 100)]
      [("batch_size", pyInt 16)]) [] = (.ok (resW, P3W, M3W), trace3W) ∧
    dictLookup P3W "instances" = some (pyInt envEx.cpu.physical_core_nums) := by
  refine ⟨rfl, rfl, ?_, rfl, by decide, rfl, ?_⟩
  · exact C3_instances_clamped.1 envEx .BOTH lpW mpW [] resW PW MW traceW rfl 8 rfl
  · exact C3_instances_clamped.2 envEx .BOTH [("instances", pyInt 100)]
      [("batch_size", pyInt 16)] [] resW P3W M3W trace3W 100 rfl (by decide) rfl

/-- Witness for `C4_batch_filter_theorem`: candidates [16, 17, 32] with the
launched instance count 8 are filtered to exactly [16, 32]. -/
theorem C4_batch_filter_theorem_witness :
    Eff.run (_optimize_latency_and_throughput envEx .BOTH lpW mpW) [] =
      (.ok (resW, PW, MW), traceW) ∧
    dictLookup mpW "batch_size" = some (PyVal.list [.int 16, .int 17, .int 32]) ∧
    ([PyScalar.int 16, .int 17, .int 32] : List PyScalar).length > 1 ∧
    dictLookup PW "instances" = some (pyInt 8) ∧
    dictLookup MW "batch_size" = some (PyVal.list [.int 16, .int 32]) := by
  have H := C4_batch_filter_theorem envEx .BOTH lpW mpW [] resW PW MW traceW rfl
  exact ⟨rfl, rfl, by decide, rfl,
    (H.1 [.int 16, .int 17, .int 32] 8 rfl (by decide) rfl).trans (by decide)⟩

/-- Witness for `C7_mutation_theorem`: after the witness run the only changed
entry of `main_parameters` is "batch_size". -/
theorem C7_mutation_theorem_witness :
    Eff.run (_optimize_latency_and_throughput envEx .BOTH lpW mpW) [] =
      (.ok (resW, PW, MW), traceW) ∧
    dictLookup MW "allocator" = dictLookup mpW "allocator" ∧
    ∃ b₂, MW = dictSet mpW "batch_size" b₂ := by
  have H := C7_mutation_theorem envEx .BOTH lpW mpW [] resW PW MW traceW rfl
  exact ⟨rfl, H.1 "allocator" (by decide), H.2⟩

/-- Witness for `C8_missing_batch_theorem`: with empty launcher and main
parameters the run fails with the "batch_size" lookup error and never
launches. -/
theorem C8_missing_batch_theorem_witness :
    NodupKeys ([] : Dict) ∧ dictLookup ([] : Dict) "batch_size" = none ∧
    ∃ e evs₂,
      Eff.run (_optimize_latency_and_throughput envEx .BOTH [] []) [] =
        (.error e, evs₂) ∧
      (∀ P M, Event.launch P M ∈ evs₂ → Event.launch P M ∈ ([] : List Event)) ∧
      (dictContains ([] : Dict) "instances" = false → e = .keyError "batch_size") ∧
      (∀ n : Int, dictLookup ([] : Dict) "instances" = some (pyInt n) →
        e = .keyError "batch_size") :=
  ⟨by decide, rfl, C8_missing_batch_theorem envEx .BOTH [] [] [] (by decide) rfl⟩

/-- Witness for `C10_nbcores_dummy_theorem` at the concrete witness run. -/
theorem C10_nbcores_dummy_theorem_witness :
    Eff.run (_optimize_latency_and_throughput envEx .BOTH lpW mpW) [] =
      (.ok (resW, PW, MW), traceW) ∧
    ∃ t, traceW = [] ++ t ∧
      (∀ b m oi, Event.genCores b m oi ∈ t → b = 1 ∧ m = TuningMode.BOTH ∧
        ∃ j : Int, oi = some j ∧ dictLookup PW "instances" = some (pyInt j)) ∧
      (∀ c, Event.suggest "nb_cores" c ∈ t → ∃ j : Int,
        dictLookup PW "instances" = some (pyInt j) ∧
        c = (envEx.genNbCores 1 TuningMode.BOTH envEx.cpu (some j)).map PyScalar.int) :=
  ⟨rfl, C10_nbcores_dummy_theorem envEx .BOTH lpW mpW [] resW PW MW traceW rfl⟩

end Claims

end HpoOptuna
